import Mathlib

/-!
Vault Guardian — Backup Orchestration Subsystem, shallow embedding.

A shallow embedding in Lean 4 of the backup orchestration core of the
Vault Guardian plugin (`src/main.ts`): the scheduler arithmetic
(`scheduleNextBackup`, `checkAndRunBackup`), the retention manager
(`cleanOldBackups` / its inner `cleanDirectory`), the metadata-tree
archive walker (`addFolderToZip`), and the orchestrator (`createBackup`).

Times are rationals (JavaScript millisecond timestamps; the configured
interval is a possibly fractional number of hours).  Filesystem and
notifier effects are made explicit: `createBackup` is a pure function
from an environment (which supplies the vault files, the `.obsidian`
directory tree, and the success/failure of each filesystem operation)
and a plugin state to a new plugin state plus a trace of events.
-/

namespace VaultGuardian

/-- The settings record `BackupPluginSettings` from `src/main.ts`.  Numeric JS fields are
embedded as `ℚ` (timestamps, the interval in hours) or `ℤ` (the
retention counts, which flow into `Array.prototype.slice`). -/
structure Settings where
  backupPath : String
  secondaryBackupPath : String
  autoBackupInterval : ℚ
  lastBackupTime : ℚ
  compressionLevel : ℕ
  maxBackupCount : ℤ
  secondaryMaxBackupCount : ℤ
deriving DecidableEq

/-- The JS test `!s || s.trim() === ''` used for both backup paths:
the string is empty or consists only of whitespace. -/
def isBlank (s : String) : Bool :=
  s.data.all fun c => c.isWhitespace

/-- Conversion `autoBackupInterval * 60 * 60 * 1000` — hours to milliseconds. -/
def intervalMsOf (hours : ℚ) : ℚ :=
  hours * (60 * 60 * 1000)

/-- The function `BackupScheduler.scheduleNextBackup` (`src/main.ts:34-49`),
as a function of the current time, the stored last-backup timestamp and
the configured interval, returning the new `nextBackupTime`.
`lastBackupTime || Date.now()` reads the current time when the stored
timestamp is `0` (JS falsiness). -/
def scheduleNextBackup (now lastBackupTime intervalHours : ℚ) : ℚ :=
  let last := if lastBackupTime = 0 then now else lastBackupTime
  let next := last + intervalMsOf intervalHours
  if next ≤ now then now + intervalMsOf intervalHours else next

/-! ## Retention (`cleanOldBackups` / `cleanDirectory`) -/

/-- One entry of a destination directory as seen by `cleanDirectory`:
its filename and its `stat` modification time (ms). -/
structure DirFile where
  name : String
  mtime : ℤ
deriving DecidableEq

/-- The test `f.endsWith('.zip')`, via the character list so that it evaluates
by kernel reduction. -/
def endsWithZip (s : String) : Bool :=
  ".zip".data.isSuffixOf s.data

/-- The comparator `(a, b) => b.time - a.time`: `a` may precede `b`
exactly when `b.mtime ≤ a.mtime` (newest first). -/
def descMtime (a b : DirFile) : Prop :=
  b.mtime ≤ a.mtime

instance : DecidableRel descMtime :=
  fun a b => inferInstanceAs (Decidable (b.mtime ≤ a.mtime))

instance : IsTotal DirFile descMtime :=
  ⟨fun a b => (le_total b.mtime a.mtime).imp id id⟩

instance : IsTrans DirFile descMtime :=
  ⟨fun _ _ _ hab hbc => le_trans hbc hab⟩

/-- The start index of `arr.slice(start)` for an array of length `len`:
a negative `start` counts from the end (clamped at `0`), a non-negative
one is clamped at `len`. -/
def jsSliceIdx (len : ℕ) (start : ℤ) : ℕ :=
  if start < 0 then ((len : ℤ) + start).toNat else min start.toNat len

/-- The `.zip` entries of the directory, sorted newest-first by
modification time (`files.filter(f => f.endsWith('.zip'))` followed by
`sort((a, b) => b.time - a.time)`; JS `sort` is stable, so any stable
sort by the same comparator — here insertion sort — is the same
function). -/
def sortedBackupFiles (files : List DirFile) : List DirFile :=
  List.insertionSort descMtime (files.filter fun f => endsWithZip f.name)

/-- The files `cleanDirectory(dir, retentionCount)` deletes
(`filesToDelete = sortedBackupFiles.slice(retentionCount)`,
`src/main.ts:200-235`).  A `none` listing is a failed `readdir`,
caught inside `cleanDirectory`: nothing is deleted. -/
def cleanDirectoryDeletes (listing : Option (List DirFile)) (retentionCount : ℤ) :
    List DirFile :=
  match listing with
  | none => []
  | some files =>
    let sorted := sortedBackupFiles files
    sorted.drop (jsSliceIdx sorted.length retentionCount)

/-- The files `cleanDirectory(dir, retentionCount)` leaves in place (the
complement of `cleanDirectoryDeletes` within the sorted `.zip` list). -/
def cleanDirectoryKept (listing : Option (List DirFile)) (retentionCount : ℤ) :
    List DirFile :=
  match listing with
  | none => []
  | some files =>
    let sorted := sortedBackupFiles files
    sorted.take (jsSliceIdx sorted.length retentionCount)

/-- The deletions performed by one `cleanOldBackups` call, per
destination. -/
structure Deletions where
  primary : List DirFile
  secondary : List DirFile
deriving DecidableEq

/-- The retention pass `cleanOldBackups` (`src/main.ts:193-246`): returns which files are
deleted at each destination.  The guard `maxBackupCount <= 0` returns
before touching either directory; otherwise the primary directory is
cleaned with `maxBackupCount` and, when a secondary path is configured,
the secondary directory is cleaned with `secondaryMaxBackupCount`. -/
def cleanOldBackups (s : Settings)
    (primaryListing secondaryListing : Option (List DirFile)) : Deletions :=
  if s.maxBackupCount ≤ 0 then ⟨[], []⟩
  else
    { primary := cleanDirectoryDeletes primaryListing s.maxBackupCount
      secondary :=
        if isBlank s.secondaryBackupPath then []
        else cleanDirectoryDeletes secondaryListing s.secondaryMaxBackupCount }

/-! ## Archive builder (`addFolderToZip`, `src/main.ts:298-342`) -/

/-- The content of an archive entry: raw bytes (`Buffer` from
`fs.readFile`) or the UTF-8 encoding of a string
(`Buffer.from(string)`). -/
inductive Content where
  | raw (bytes : List ℕ)
  | utf8 (s : String)
deriving DecidableEq

/-- One entry added to the `AdmZip` object: relative path inside the
archive and its content. -/
structure ZipEntry where
  path : String
  content : Content
deriving DecidableEq

/-- One child of a metadata-tree directory as the walker observes it.
`file` carries the outcome of the two read attempts: `rawRead` is the
result of `fs.readFile(fullPath)` (`none` = the read rejects) and
`textRead` the result of the retry `fs.readFile(fullPath, 'utf8')`.
`dir` carries the outcome of `fs.readdir` on it (`listingOk = false` =
the listing rejects) and its children.  `symlink` carries the
`fs.readlink` target and, in `deref`, the subtree the filesystem
exposes behind the link — present in the model so that theorems can
state that the walker never looks at it.  `broken` is a child whose
`fs.lstat` rejects. -/
inductive FsNode where
  | file (name : String) (rawRead : Option (List ℕ)) (textRead : Option String)
  | dir (name : String) (listingOk : Bool) (children : List FsNode)
  | symlink (name : String) (target : String) (deref : List FsNode)
  | broken (name : String)

/-- A console warning recorded by the walker: a file unreadable after
both attempts (`console.error`, `src/main.ts:330`) or a child whose
`lstat`/recursion threw (`console.warn`, `src/main.ts:335`). -/
inductive Warn where
  | readFail (zipPath : String)
  | statFail (name : String)
deriving DecidableEq

/-- The join `path.join(zipBasePath, file.name)` for the relative paths the
walker builds (the base is `'.obsidian'` at the root). -/
def zjoin (base name : String) : String :=
  if base = "" then name else base ++ "/" ++ name

mutual

/-- The archive entries and warnings produced for one child inside
`addFolderToZip`'s loop (`src/main.ts:305-337`): a symbolic link is
stored as a file whose content is the link target and is not recursed
into; a directory contributes an explicit trailing-slash entry and then
its recursively collected children (a directory whose own `readdir`
rejects throws out of the recursive call, which the enclosing per-child
`catch` turns into a warning — the slash entry was already added); a
regular file is read as bytes, retried as text, and skipped with a
warning when both fail; a child whose `lstat` rejects is skipped with a
warning. -/
def addNode (zipBase : String) : FsNode → List ZipEntry × List Warn
  | .symlink name target _ => ([⟨zjoin zipBase name, .utf8 target⟩], [])
  | .dir name ok children =>
      let zp := zjoin zipBase name
      if ok then
        let r := addChildren zp children
        (⟨zp ++ "/", .raw []⟩ :: r.1, r.2)
      else
        (⟨zp ++ "/", .raw []⟩ :: [], [.statFail name])
  | .file name rawRead textRead =>
      let zp := zjoin zipBase name
      match rawRead with
      | some bs => ([⟨zp, .raw bs⟩], [])
      | none =>
        match textRead with
        | some t => ([⟨zp, .utf8 t⟩], [])
        | none => ([], [.readFail zp])
  | .broken name => ([], [.statFail name])

/-- Traversal by `addFolderToZip` of a successfully listed directory:
children in listing order, entries and warnings concatenated. -/
def addChildren (zipBase : String) : List FsNode → List ZipEntry × List Warn
  | [] => ([], [])
  | n :: rest =>
      let r1 := addNode zipBase n
      let r2 := addChildren zipBase rest
      (r1.1 ++ r2.1, r1.2 ++ r2.2)

end

/-! ## Orchestrator (`createBackup`, `src/main.ts:249-419`) -/

/-- The mutable plugin state `createBackup` touches: the settings
record and the `isBackupInProgress` flag. -/
structure PluginState where
  settings : Settings
  isBackupInProgress : Bool
deriving DecidableEq

/-- The environment of one `createBackup` invocation: the current time,
the vault files with the outcome of each `vault.read` (`none` = the
read rejects), the `.obsidian` root listing (`none` = `readdir` on the
root rejects), the outcome of `mkdir` (`true` also covers `EEXIST`),
of `zip.writeZip`, and of the secondary `copyFile`, the directory
listings the retention pass will see, and the vault name and timestamp
string used for the archive filename. -/
structure Env where
  now : ℚ
  vaultFiles : List (String × Option String)
  obsidianListing : Option (List FsNode)
  mkdirOk : Bool
  writeOk : Bool
  copyOk : Bool
  primaryDirListing : Option (List DirFile)
  secondaryDirListing : Option (List DirFile)
  vaultName : String
  timestamp : String

/-- The archive filename `timestamp_vaultName.zip`. -/
def zipNameOf (env : Env) : String :=
  env.timestamp ++ "_" ++ env.vaultName ++ ".zip"

/-- One observable step of a `createBackup` run: a `new Notice`, a
`progressNotice.setMessage`, a filesystem mutation, a settings save, or
a console warning from the metadata walker.  Each constructor
corresponds to one source line. -/
inductive Event where
  | noticeNoPath
  | noticeSecondaryCopyFailed
  | progressStart
  | progressPct (p : ℕ)
  | progressVerifying
  | progressPartialObsidian
  | progressBackupFailed
  | progressBackupCreated
  | mkdirPrimary
  | zipWrite (filename : String) (entries : List ZipEntry)
  | copySecondary (filename : String)
  | deletePrimary (name : String)
  | deleteSecondary (name : String)
  | warn (w : Warn)
  | saveSettings
deriving DecidableEq

/-- Events that create, write, copy or delete something on disk. -/
def Event.isFsMutation : Event → Bool
  | .mkdirPrimary | .zipWrite _ _ | .copySecondary _
  | .deletePrimary _ | .deleteSecondary _ => true
  | _ => false

/-- Retention deletions. -/
def Event.isDelete : Event → Bool
  | .deletePrimary _ | .deleteSecondary _ => true
  | _ => false

/-- Percentage `Math.round((processed / total) * 100)` on naturals. -/
def pct (done total : ℕ) : ℕ :=
  (200 * done + total) / (2 * total)

/-- The vault-file loop (`src/main.ts:288-296`): reads each file,
collects its archive entry and a percentage progress event; a rejected
`vault.read` is not caught locally, so the loop stops and the run
fails (third component `false`). -/
def readVaultLoop (total : ℕ) : ℕ → List (String × Option String) →
    List ZipEntry × List Event × Bool
  | _, [] => ([], [], true)
  | _, (_, none) :: _ => ([], [], false)
  | processed, (p, some content) :: rest =>
      let done := processed + 1
      let r := readVaultLoop total done rest
      (⟨p, .utf8 content⟩ :: r.1, .progressPct (pct done total) :: r.2.1, r.2.2)

/-- The vault-ingestion phase of `createBackup`. -/
def vaultPhase (env : Env) : List ZipEntry × List Event × Bool :=
  readVaultLoop env.vaultFiles.length 0 env.vaultFiles

/-- The metadata phase: `addFolderToZip(zip, obsidianPath, '.obsidian')`
on the root listing; `none` means the root `readdir` rejected and the
call threw. -/
def metaPhase (listing : Option (List FsNode)) : Option (List ZipEntry × List Warn) :=
  listing.map (addChildren ".obsidian")

/-- User-visible trace of the metadata phase: the walker's warnings, or
the `'Partial .obsidian folder added'` message when the root listing
threw (caught at `src/main.ts:348-351`). -/
def metaEventsOf : Option (List ZipEntry × List Warn) → List Event
  | none => [.progressPartialObsidian]
  | some r => r.2.map Event.warn

/-- Archive entries contributed by the metadata phase. -/
def metaEntriesOf : Option (List ZipEntry × List Warn) → List ZipEntry
  | none => []
  | some r => r.1

/-- The secondary-copy step (`src/main.ts:382-392`): skipped when no
secondary path is configured; a failed `copyFile` is caught locally and
reported without failing the run. -/
def secondaryEvents (s : Settings) (env : Env) : List Event :=
  if isBlank s.secondaryBackupPath then []
  else if env.copyOk then [.copySecondary (zipNameOf env)]
  else [.noticeSecondaryCopyFailed]

/-- The retention deletions as events. -/
def deleteEvents (d : Deletions) : List Event :=
  d.primary.map (fun f => .deletePrimary f.name)
    ++ d.secondary.map (fun f => .deleteSecondary f.name)

/-- The orchestrator `createBackup` (`src/main.ts:249-419`) as a state transformer with
an event trace.  The branches mirror the source control flow: the blank
primary path is rejected before the `try` block (no state change); a
rejected `vault.read`, a fatal `mkdir` failure or a failed `writeZip`
throws to the outer `catch` (failure message, settings untouched,
retention skipped) and the `finally` clears the in-progress flag; on
the success path the secondary copy is attempted, `lastBackupTime` is
set to the current time, settings are saved, both destinations are
pruned and the success message is shown. -/
def createBackup (env : Env) (s : PluginState) : PluginState × List Event :=
  if isBlank s.settings.backupPath then (s, [.noticeNoPath])
  else if (vaultPhase env).2.2 = false then
    (⟨s.settings, false⟩,
     .progressStart :: (vaultPhase env).2.1 ++ [.progressBackupFailed])
  else if env.mkdirOk = false then
    (⟨s.settings, false⟩,
     .progressStart :: (vaultPhase env).2.1 ++ [.progressVerifying]
       ++ metaEventsOf (metaPhase env.obsidianListing) ++ [.progressBackupFailed])
  else if env.writeOk = false then
    (⟨s.settings, false⟩,
     .progressStart :: (vaultPhase env).2.1 ++ [.progressVerifying]
       ++ metaEventsOf (metaPhase env.obsidianListing)
       ++ [.mkdirPrimary, .progressBackupFailed])
  else
    (⟨{ s.settings with lastBackupTime := env.now }, false⟩,
     .progressStart :: (vaultPhase env).2.1 ++ [.progressVerifying]
       ++ metaEventsOf (metaPhase env.obsidianListing)
       ++ [.mkdirPrimary,
           .zipWrite (zipNameOf env)
             ((vaultPhase env).1 ++ metaEntriesOf (metaPhase env.obsidianListing))]
       ++ secondaryEvents s.settings env
       ++ [.saveSettings]
       ++ deleteEvents (cleanOldBackups { s.settings with lastBackupTime := env.now }
            env.primaryDirListing env.secondaryDirListing)
       ++ [.progressBackupCreated])

/-! ## Scheduler tick and manual trigger -/

/-- The scheduler's own state: the computed `nextBackupTime`. -/
structure SchedulerState where
  nextBackupTime : ℚ
deriving DecidableEq

/-- The tick handler `checkAndRunBackup` (`src/main.ts:68-73`): on a tick, run a backup
only when the due time has arrived **and** no backup is in progress,
then reschedule from the new `lastBackupTime`. -/
def checkAndRunBackup (env : Env) (sched : SchedulerState) (s : PluginState) :
    SchedulerState × PluginState × List Event :=
  if sched.nextBackupTime ≤ env.now ∧ s.isBackupInProgress = false then
    let r := createBackup env s
    (⟨scheduleNextBackup env.now r.1.settings.lastBackupTime
        r.1.settings.autoBackupInterval⟩, r.1, r.2)
  else (sched, s, [])

/-- The manual trigger `forceBackupNow` (`src/main.ts:93-96`): invokes `createBackup`
without any due-time or in-progress check, then reschedules. -/
def forceBackupNow (env : Env) (_sched : SchedulerState) (s : PluginState) :
    SchedulerState × PluginState × List Event :=
  let r := createBackup env s
  (⟨scheduleNextBackup env.now r.1.settings.lastBackupTime
      r.1.settings.autoBackupInterval⟩, r.1, r.2)

/-- A metadata-tree child that is a regular file whose first read
attempt succeeds. -/
def FsNode.readOk : FsNode → Bool
  | .file _ (some _) _ => true
  | _ => false

/-! ## Helper lemmas -/

theorem addChildren_append (zipBase : String) (l1 l2 : List FsNode) :
    addChildren zipBase (l1 ++ l2)
      = ((addChildren zipBase l1).1 ++ (addChildren zipBase l2).1,
         (addChildren zipBase l1).2 ++ (addChildren zipBase l2).2) := by
  induction l1 with
  | nil => simp [addChildren]
  | cons n rest ih => simp [addChildren, ih]

theorem readVaultLoop_all_some_ok (total : ℕ) (l : List (String × Option String))
    (h : ∀ pc ∈ l, pc.2.isSome = true) :
    ∀ p, (readVaultLoop total p l).2.2 = true := by
  induction l with
  | nil => intro p; rfl
  | cons pc rest ih =>
    intro p
    obtain ⟨q, c⟩ := pc
    cases c with
    | none => exact absurd (h (q, none) (List.mem_cons_self _ _)) (by simp)
    | some cc =>
      have := ih (fun x hx => h x (List.mem_cons_of_mem _ hx)) (p + 1)
      simpa [readVaultLoop] using this

theorem readVaultLoop_events_shape (total : ℕ) (l : List (String × Option String)) :
    ∀ p, ∀ e ∈ (readVaultLoop total p l).2.1, ∃ k, e = Event.progressPct k := by
  induction l with
  | nil => intro p e he; simp [readVaultLoop] at he
  | cons pc rest ih =>
    intro p e he
    obtain ⟨q, c⟩ := pc
    cases c with
    | none => simp [readVaultLoop] at he
    | some cc =>
      simp only [readVaultLoop, List.mem_cons] at he
      rcases he with rfl | he
      · exact ⟨_, rfl⟩
      · exact ih (p + 1) e he

theorem readVaultLoop_entries_of_map (total : ℕ) (vf : List (String × String)) :
    ∀ p, (readVaultLoop total p (vf.map fun pc => (pc.1, some pc.2))).1
      = vf.map fun pc => ZipEntry.mk pc.1 (Content.utf8 pc.2) := by
  induction vf with
  | nil => intro p; rfl
  | cons pc rest ih =>
    intro p
    simp [readVaultLoop, ih (p + 1)]

theorem metaEventsOf_shape (x : Option (List ZipEntry × List Warn)) (e : Event)
    (he : e ∈ metaEventsOf x) :
    e = Event.progressPartialObsidian ∨ ∃ w, e = Event.warn w := by
  cases x with
  | none =>
    left
    simpa [metaEventsOf] using he
  | some r =>
    right
    rw [metaEventsOf] at he
    obtain ⟨w, _, rfl⟩ := List.mem_map.mp he
    exact ⟨w, rfl⟩

theorem secondaryEvents_shape (s : Settings) (env : Env) (e : Event)
    (he : e ∈ secondaryEvents s env) :
    e = Event.copySecondary (zipNameOf env) ∨ e = Event.noticeSecondaryCopyFailed := by
  rw [secondaryEvents] at he
  split_ifs at he
  · simp at he
  · left; simpa using he
  · right; simpa using he

theorem deleteEvents_shape (d : Deletions) (e : Event) (he : e ∈ deleteEvents d) :
    (∃ n, e = Event.deletePrimary n) ∨ ∃ n, e = Event.deleteSecondary n := by
  rw [deleteEvents] at he
  rcases List.mem_append.mp he with h | h
  · left
    obtain ⟨f, _, rfl⟩ := List.mem_map.mp h
    exact ⟨f.name, rfl⟩
  · right
    obtain ⟨f, _, rfl⟩ := List.mem_map.mp h
    exact ⟨f.name, rfl⟩

/-! ## Theorems -/

/-- C5: for every lastBackupTime and every positive interval, immediately
after `scheduleNextBackup` the next-due timestamp is strictly greater
than the current time; and when `lastBackupTime + interval` is already
in the past, the next-due timestamp is set to `now + interval`, never to
a past time. -/
theorem scheduleNextBackup_due_strictly_future (now last i : ℚ) (hi : 0 < i) :
    now < scheduleNextBackup now last i
    ∧ (last + intervalMsOf i ≤ now → scheduleNextBackup now last i = now + intervalMsOf i) := by
  have him : 0 < intervalMsOf i := by
    rw [intervalMsOf]; positivity
  rw [scheduleNextBackup]
  by_cases h0 : last = 0
  · subst h0
    rw [if_pos rfl, if_neg (by linarith)]
    exact ⟨by linarith, fun _ => rfl⟩
  · rw [if_neg h0]
    by_cases h1 : last + intervalMsOf i ≤ now
    · rw [if_pos h1]
      exact ⟨by linarith, fun _ => rfl⟩
    · rw [if_neg h1]
      push_neg at h1
      exact ⟨by linarith, fun hle => absurd hle (by linarith)⟩

/-- Witness for C5: the spec scenario — interval one hour, last backup
two hours in the past (now = 0, lastBackupTime = −7 200 000 ms). -/
theorem scheduleNextBackup_due_strictly_future_witness :
    0 < (1 : ℚ)
    ∧ ((0 : ℚ) < scheduleNextBackup 0 (-7200000) 1
       ∧ ((-7200000 : ℚ) + intervalMsOf 1 ≤ 0 →
           scheduleNextBackup 0 (-7200000) 1 = 0 + intervalMsOf 1)) :=
  ⟨by decide, scheduleNextBackup_due_strictly_future 0 (-7200000) 1 (by decide)⟩

/-- C10: when the primary keep-count `maxBackupCount` is ≤ 0 the
retention pass deletes nothing at either destination — the secondary is
not pruned in that case even if its own keep-count is positive; when
the primary keep-count is positive, the secondary is pruned with its
own keep-count exactly when a secondary path is configured. -/
theorem cleanOldBackups_gated_by_primary_keep_count (s : Settings)
    (pl sl : Option (List DirFile)) :
    (s.maxBackupCount ≤ 0 → cleanOldBackups s pl sl = ⟨[], []⟩)
    ∧ (0 < s.maxBackupCount →
        (cleanOldBackups s pl sl).secondary =
          if isBlank s.secondaryBackupPath then []
          else cleanDirectoryDeletes sl s.secondaryMaxBackupCount) := by
  constructor
  · intro h
    rw [cleanOldBackups, if_pos h]
  · intro h
    rw [cleanOldBackups, if_neg (by omega)]

/-- Witness for C10: with primary keep-count 0 (and a configured
secondary with positive keep-count 3) nothing is deleted anywhere; with
primary keep-count 5 the secondary is pruned with its own keep-count. -/
theorem cleanOldBackups_gated_by_primary_keep_count_witness :
    ((⟨"/p", "/sec", 24, 0, 9, 0, 3⟩ : Settings).maxBackupCount ≤ 0
      ∧ cleanOldBackups ⟨"/p", "/sec", 24, 0, 9, 0, 3⟩
          (some [⟨"p.zip", 1⟩]) (some [⟨"s.zip", 2⟩]) = ⟨[], []⟩)
    ∧ (0 < (⟨"/p", "/sec", 24, 0, 9, 5, 1⟩ : Settings).maxBackupCount
      ∧ (cleanOldBackups ⟨"/p", "/sec", 24, 0, 9, 5, 1⟩
          (some [⟨"p.zip", 1⟩]) (some [⟨"s.zip", 2⟩])).secondary =
          (if isBlank (⟨"/p", "/sec", 24, 0, 9, 5, 1⟩ : Settings).secondaryBackupPath then []
           else cleanDirectoryDeletes (some [⟨"s.zip", 2⟩])
             (⟨"/p", "/sec", 24, 0, 9, 5, 1⟩ : Settings).secondaryMaxBackupCount)) :=
  ⟨⟨by decide, (cleanOldBackups_gated_by_primary_keep_count _ _ _).1 (by decide)⟩,
   ⟨by decide, (cleanOldBackups_gated_by_primary_keep_count _ _ _).2 (by decide)⟩⟩

/-- C2 (code bug evidence): `cleanDirectory` — the per-directory
retention operation `prune(dir, keepCount)` — has no `keepCount ≤ 0`
guard of its own, so with keep-count 0 it deletes **every** archive in
the directory (`sorted.slice(0)` is the whole list).  This is reachable
through `cleanOldBackups` whenever the primary keep-count is positive,
a secondary path is configured and the secondary keep-count is 0 —
although the settings UI documents 0 as "keep all" for both
destinations. -/
theorem cleanDirectory_keep_count_zero_deletes_all :
    cleanDirectoryDeletes (some [⟨"a.zip", 100⟩]) 0 = [⟨"a.zip", 100⟩]
    ∧ (cleanOldBackups ⟨"/p", "/sec", 24, 0, 9, 5, 0⟩ (some [])
         (some [⟨"a.zip", 100⟩])).secondary = [⟨"a.zip", 100⟩] :=
  ⟨rfl, rfl⟩

/-- C8: for a directory of `.zip` archives with pairwise distinct
modification times and a keep-count `N` with `0 < N < M`, `prune`
(`cleanDirectory`) keeps exactly the `N` most recently modified
archives and deletes the remaining `M − N`: the kept list has length
`N`, the deleted list has length `M − N`, together they are exactly
the directory's files, and every deleted file is strictly older than
every kept file. -/
theorem cleanDirectory_keeps_most_recent (files : List DirFile) (N : ℤ)
    (hzip : ∀ f ∈ files, endsWithZip f.name = true)
    (hdist : files.Pairwise fun a b => a.mtime ≠ b.mtime)
    (hN0 : 0 < N) (hNM : N < (files.length : ℤ)) :
    (cleanDirectoryKept (some files) N).length = N.toNat
    ∧ (cleanDirectoryDeletes (some files) N).length = files.length - N.toNat
    ∧ List.Perm (cleanDirectoryKept (some files) N ++ cleanDirectoryDeletes (some files) N)
        files
    ∧ ∀ k ∈ cleanDirectoryKept (some files) N, ∀ d ∈ cleanDirectoryDeletes (some files) N,
        d.mtime < k.mtime := by
  have hfilter : files.filter (fun f => endsWithZip f.name) = files :=
    List.filter_eq_self.mpr hzip
  have hperm : List.Perm (sortedBackupFiles files) files := by
    rw [sortedBackupFiles, hfilter]; exact List.perm_insertionSort _ _
  have hlen : (sortedBackupFiles files).length = files.length := hperm.length_eq
  have hidx : jsSliceIdx (sortedBackupFiles files).length N = N.toNat := by
    rw [jsSliceIdx, if_neg (by omega), hlen]
    omega
  have hkept : cleanDirectoryKept (some files) N = (sortedBackupFiles files).take N.toNat := by
    simp [cleanDirectoryKept, hidx]
  have hdel : cleanDirectoryDeletes (some files) N
      = (sortedBackupFiles files).drop N.toNat := by
    simp [cleanDirectoryDeletes, hidx]
  have hsorted : List.Sorted descMtime (sortedBackupFiles files) := by
    rw [sortedBackupFiles]; exact List.sorted_insertionSort _ _
  have hdist' : (sortedBackupFiles files).Pairwise (fun a b => a.mtime ≠ b.mtime) :=
    (hperm.pairwise_iff fun h => h.symm).mpr hdist
  have hsplit := List.take_append_drop N.toNat (sortedBackupFiles files)
  refine ⟨?_, ?_, ?_, ?_⟩
  · rw [hkept, List.length_take]; omega
  · rw [hdel, List.length_drop]; omega
  · rw [hkept, hdel, hsplit]; exact hperm
  · intro k hk d hd
    rw [hkept] at hk; rw [hdel] at hd
    have h1 : descMtime k d := by
      have hp := hsorted
      rw [← hsplit] at hp
      exact ((List.pairwise_append.mp hp).2.2) k hk d hd
    have h2 : k.mtime ≠ d.mtime := by
      rw [← hsplit] at hdist'
      exact ((List.pairwise_append.mp hdist').2.2) k hk d hd
    exact lt_of_le_of_ne h1 (Ne.symm h2)

/-- Witness for C8: the spec scenario — keep-count 2 over 5 archives
with distinct modification times. -/
theorem cleanDirectory_keeps_most_recent_witness :
    (∀ f ∈ [(⟨"a.zip", 1⟩ : DirFile), ⟨"b.zip", 4⟩, ⟨"c.zip", 2⟩, ⟨"d.zip", 5⟩, ⟨"e.zip", 3⟩],
        endsWithZip f.name = true)
    ∧ ([(⟨"a.zip", 1⟩ : DirFile), ⟨"b.zip", 4⟩, ⟨"c.zip", 2⟩, ⟨"d.zip", 5⟩,
        ⟨"e.zip", 3⟩].Pairwise fun a b => a.mtime ≠ b.mtime)
    ∧ (0 : ℤ) < 2
    ∧ (2 : ℤ) < ([(⟨"a.zip", 1⟩ : DirFile), ⟨"b.zip", 4⟩, ⟨"c.zip", 2⟩, ⟨"d.zip", 5⟩,
        ⟨"e.zip", 3⟩].length : ℤ)
    ∧ ((cleanDirectoryKept (some [⟨"a.zip", 1⟩, ⟨"b.zip", 4⟩, ⟨"c.zip", 2⟩, ⟨"d.zip", 5⟩,
          ⟨"e.zip", 3⟩]) 2).length = (2 : ℤ).toNat
       ∧ (cleanDirectoryDeletes (some [⟨"a.zip", 1⟩, ⟨"b.zip", 4⟩, ⟨"c.zip", 2⟩, ⟨"d.zip", 5⟩,
          ⟨"e.zip", 3⟩]) 2).length = [(⟨"a.zip", 1⟩ : DirFile), ⟨"b.zip", 4⟩, ⟨"c.zip", 2⟩,
          ⟨"d.zip", 5⟩, ⟨"e.zip", 3⟩].length - (2 : ℤ).toNat
       ∧ List.Perm (cleanDirectoryKept (some [⟨"a.zip", 1⟩, ⟨"b.zip", 4⟩, ⟨"c.zip", 2⟩,
          ⟨"d.zip", 5⟩, ⟨"e.zip", 3⟩]) 2 ++ cleanDirectoryDeletes (some [⟨"a.zip", 1⟩,
          ⟨"b.zip", 4⟩, ⟨"c.zip", 2⟩, ⟨"d.zip", 5⟩, ⟨"e.zip", 3⟩]) 2) [⟨"a.zip", 1⟩,
          ⟨"b.zip", 4⟩, ⟨"c.zip", 2⟩, ⟨"d.zip", 5⟩, ⟨"e.zip", 3⟩]
       ∧ ∀ k ∈ cleanDirectoryKept (some [⟨"a.zip", 1⟩, ⟨"b.zip", 4⟩, ⟨"c.zip", 2⟩,
          ⟨"d.zip", 5⟩, ⟨"e.zip", 3⟩]) 2, ∀ d ∈ cleanDirectoryDeletes (some [⟨"a.zip", 1⟩,
          ⟨"b.zip", 4⟩, ⟨"c.zip", 2⟩, ⟨"d.zip", 5⟩, ⟨"e.zip", 3⟩]) 2, d.mtime < k.mtime) :=
  ⟨by decide, by decide, by decide, by decide,
   cleanDirectory_keeps_most_recent
     [⟨"a.zip", 1⟩, ⟨"b.zip", 4⟩, ⟨"c.zip", 2⟩, ⟨"d.zip", 5⟩, ⟨"e.zip", 3⟩] 2
     (by decide) (by decide) (by decide) (by decide)⟩

/-- C9: for every symbolic link encountered in the metadata-tree
traversal, the archive receives exactly one entry, at the mapped
relative path, whose content is the link's target path string; the
subtree behind the link (`deref`) is universally quantified and absent
from the result — the link is never dereferenced and its subtree is not
recursed into. -/
theorem addNode_symlink_stores_target (base name target : String) (deref : List FsNode) :
    addNode base (.symlink name target deref)
      = ([⟨zjoin base name, .utf8 target⟩], []) := rfl

/-- C3: with a blank (unset or whitespace-only) primary destination
path, `createBackup` rejects immediately with the configuration-error
notice, the plugin state is unchanged (`lastBackupTime` and the
in-progress flag included), and no filesystem mutation happens. -/
theorem createBackup_blank_path_rejects (env : Env) (s : PluginState)
    (h : isBlank s.settings.backupPath = true) :
    createBackup env s = (s, [.noticeNoPath])
    ∧ ∀ e ∈ (createBackup env s).2, e.isFsMutation = false := by
  have h1 : createBackup env s = (s, [.noticeNoPath]) := by
    rw [createBackup, if_pos h]
  refine ⟨h1, ?_⟩
  rw [h1]
  intro e he
  rw [List.mem_singleton] at he
  subst he
  rfl

/-- Witness for C3: empty primary path, concrete environment. -/
theorem createBackup_blank_path_rejects_witness :
    isBlank (⟨⟨"", "", 24, 0, 9, 5, 10⟩, false⟩ : PluginState).settings.backupPath = true
    ∧ (createBackup ⟨0, [], some [], true, true, true, some [], some [], "V", "T"⟩
         ⟨⟨"", "", 24, 0, 9, 5, 10⟩, false⟩
        = (⟨⟨"", "", 24, 0, 9, 5, 10⟩, false⟩, [.noticeNoPath])
       ∧ ∀ e ∈ (createBackup ⟨0, [], some [], true, true, true, some [], some [], "V", "T"⟩
           ⟨⟨"", "", 24, 0, 9, 5, 10⟩, false⟩).2, e.isFsMutation = false) :=
  ⟨by decide, createBackup_blank_path_rejects _ _ (by decide)⟩

/-- C7: every terminated `createBackup` invocation that started with
the in-progress flag clear leaves the flag clear again — the `finally`
clears it on the success path and on every fatal path, and the
blank-path rejection returns before ever setting it. -/
theorem createBackup_clears_in_progress_flag (env : Env) (s : PluginState)
    (h : s.isBackupInProgress = false) :
    (createBackup env s).1.isBackupInProgress = false := by
  rw [createBackup]
  split_ifs <;> first | exact h | rfl

/-- Witness for C7: a successful concrete run ends with the flag
clear. -/
theorem createBackup_clears_in_progress_flag_witness :
    (⟨⟨"/b", "", 24, 0, 9, 5, 10⟩, false⟩ : PluginState).isBackupInProgress = false
    ∧ (createBackup ⟨5, [], some [], true, true, true, some [], some [], "V", "T"⟩
        ⟨⟨"/b", "", 24, 0, 9, 5, 10⟩, false⟩).1.isBackupInProgress = false :=
  ⟨by decide, createBackup_clears_in_progress_flag _ _ (by decide)⟩

/-- C1 (counterexample): `createBackup` invoked while the in-progress
flag is already set is **not** a no-op — the source never checks the
flag inside `createBackup` — so at a concrete in-progress state with a
valid configuration the call mutates the state (sets `lastBackupTime`,
clears the flag) and writes an archive. -/
theorem createBackup_in_progress_not_noop :
    ((createBackup ⟨5, [], some [], true, true, true, some [], some [], "V", "T"⟩
        ⟨⟨"/b", "", 24, 0, 9, 5, 10⟩, true⟩).1
      ≠ ⟨⟨"/b", "", 24, 0, 9, 5, 10⟩, true⟩)
    ∧ Event.zipWrite "T_V.zip" []
        ∈ (createBackup ⟨5, [], some [], true, true, true, some [], some [], "V", "T"⟩
            ⟨⟨"/b", "", 24, 0, 9, 5, 10⟩, true⟩).2 := by
  constructor
  · decide
  · decide

/-- C1 (amended): the mutual exclusion lives in the scheduler tick, not
in `createBackup`: `checkAndRunBackup` invokes nothing and changes
nothing while a backup is in progress, so `forceBackupNow` followed
immediately by a tick never starts a second concurrent run. -/
theorem tick_skips_while_backup_in_progress (env : Env) (sched : SchedulerState)
    (s : PluginState) (h : s.isBackupInProgress = true) :
    checkAndRunBackup env sched s = (sched, s, []) := by
  simp [checkAndRunBackup, h]

/-- Witness for C1 (amended): a tick arriving at its due time while the
flag is set does nothing. -/
theorem tick_skips_while_backup_in_progress_witness :
    (⟨⟨"/b", "", 24, 0, 9, 5, 10⟩, true⟩ : PluginState).isBackupInProgress = true
    ∧ checkAndRunBackup ⟨5, [], some [], true, true, true, some [], some [], "V", "T"⟩
        ⟨0⟩ ⟨⟨"/b", "", 24, 0, 9, 5, 10⟩, true⟩
      = (⟨0⟩, ⟨⟨"/b", "", 24, 0, 9, 5, 10⟩, true⟩, []) :=
  ⟨by decide, tick_skips_while_backup_in_progress _ _ _ (by decide)⟩

/-- C4: when the archive write to the primary destination fails (the
run having reached it: valid path, all vault reads fine, directory
created), the run is fatal — the failure is reported, the settings
(`lastBackupTime` included) are unchanged and not persisted, and
retention pruning happens at neither destination. -/
theorem createBackup_write_failure_fatal (env : Env) (s : PluginState)
    (hpath : isBlank s.settings.backupPath = false)
    (hreads : ∀ pc ∈ env.vaultFiles, pc.2.isSome = true)
    (hmkdir : env.mkdirOk = true)
    (hwrite : env.writeOk = false) :
    (createBackup env s).1 = ⟨s.settings, false⟩
    ∧ Event.progressBackupFailed ∈ (createBackup env s).2
    ∧ (∀ e ∈ (createBackup env s).2, e.isDelete = false)
    ∧ Event.saveSettings ∉ (createBackup env s).2 := by
  have hv : (vaultPhase env).2.2 = true :=
    readVaultLoop_all_some_ok _ _ hreads 0
  have hcb : createBackup env s
      = (⟨s.settings, false⟩,
         .progressStart :: ((vaultPhase env).2.1
           ++ (.progressVerifying :: (metaEventsOf (metaPhase env.obsidianListing)
           ++ [.mkdirPrimary, .progressBackupFailed])))) := by
    rw [createBackup, if_neg (by simp [hpath]), if_neg (by simp [hv]),
      if_neg (by simp [hmkdir]), if_pos hwrite]
    simp [List.append_assoc]
  refine ⟨by rw [hcb], by rw [hcb]; simp, ?_, ?_⟩
  · rw [hcb]
    intro e he
    simp only [List.mem_cons, List.mem_append, List.not_mem_nil, or_false] at he
    rcases he with rfl | he | rfl | he | rfl | rfl
    · rfl
    · obtain ⟨k, rfl⟩ := readVaultLoop_events_shape _ _ 0 e he
      rfl
    · rfl
    · rcases metaEventsOf_shape _ _ he with rfl | ⟨w, rfl⟩ <;> rfl
    · rfl
    · rfl
  · rw [hcb]
    intro hmem
    simp only [List.mem_cons, List.mem_append, List.not_mem_nil, or_false] at hmem
    rcases hmem with h | h | h | h | h | h
    · exact absurd h (by simp)
    · obtain ⟨k, hk⟩ := readVaultLoop_events_shape _ _ 0 _ h
      exact absurd hk (by simp)
    · exact absurd h (by simp)
    · rcases metaEventsOf_shape _ _ h with hk | ⟨w, hk⟩ <;> exact absurd hk (by simp)
    · exact absurd h (by simp)
    · exact absurd h (by simp)

/-- Witness for C4: one readable vault file, directory creation
succeeds, the archive write fails. -/
theorem createBackup_write_failure_fatal_witness :
    isBlank (⟨⟨"/b", "", 24, 0, 9, 5, 10⟩, false⟩ : PluginState).settings.backupPath = false
    ∧ (∀ pc ∈ (⟨5, [("n.md", some "x")], some [], true, false, true, some [], some [],
          "V", "T"⟩ : Env).vaultFiles, pc.2.isSome = true)
    ∧ (⟨5, [("n.md", some "x")], some [], true, false, true, some [], some [],
          "V", "T"⟩ : Env).mkdirOk = true
    ∧ (⟨5, [("n.md", some "x")], some [], true, false, true, some [], some [],
          "V", "T"⟩ : Env).writeOk = false
    ∧ ((createBackup ⟨5, [("n.md", some "x")], some [], true, false, true, some [], some [],
          "V", "T"⟩ ⟨⟨"/b", "", 24, 0, 9, 5, 10⟩, false⟩).1
        = ⟨(⟨⟨"/b", "", 24, 0, 9, 5, 10⟩, false⟩ : PluginState).settings, false⟩
       ∧ Event.progressBackupFailed
          ∈ (createBackup ⟨5, [("n.md", some "x")], some [], true, false, true, some [],
              some [], "V", "T"⟩ ⟨⟨"/b", "", 24, 0, 9, 5, 10⟩, false⟩).2
       ∧ (∀ e ∈ (createBackup ⟨5, [("n.md", some "x")], some [], true, false, true, some [],
              some [], "V", "T"⟩ ⟨⟨"/b", "", 24, 0, 9, 5, 10⟩, false⟩).2, e.isDelete = false)
       ∧ Event.saveSettings
          ∉ (createBackup ⟨5, [("n.md", some "x")], some [], true, false, true, some [],
              some [], "V", "T"⟩ ⟨⟨"/b", "", 24, 0, 9, 5, 10⟩, false⟩).2) :=
  ⟨by decide, by decide, by decide, by decide,
   createBackup_write_failure_fatal _ _ (by decide) (by decide) (by decide) (by decide)⟩

/-- C6: a regular metadata file whose raw read fails is retried as text
and re-encoded (first conjunct); when both attempts fail the entry is
skipped with a warning and the build continues — for a metadata listing
with one unreadable file among readable ones the written archive
contains the primary-tree entries plus every other metadata entry, the
warning is recorded, and the run ends with the success message, never
the failure message (partial success, not failure). -/
theorem createBackup_unreadable_metadata_skipped (env : Env) (s : PluginState)
    (vf : List (String × String)) (as bs : List FsNode) (nm : String)
    (hpath : isBlank s.settings.backupPath = false)
    (hvf : env.vaultFiles = vf.map fun pc => (pc.1, some pc.2))
    (hmkdir : env.mkdirOk = true)
    (hwrite : env.writeOk = true)
    (hob : env.obsidianListing = some (as ++ FsNode.file nm none none :: bs))
    (hread : ∀ n ∈ as ++ bs, n.readOk = true) :
    (∀ base name t, addNode base (.file name none (some t))
        = ([⟨zjoin base name, .utf8 t⟩], []))
    ∧ Event.zipWrite (zipNameOf env)
        ((vf.map fun pc => ZipEntry.mk pc.1 (Content.utf8 pc.2))
          ++ ((addChildren ".obsidian" as).1 ++ (addChildren ".obsidian" bs).1))
        ∈ (createBackup env s).2
    ∧ Event.warn (Warn.readFail (zjoin ".obsidian" nm)) ∈ (createBackup env s).2
    ∧ Event.progressBackupCreated ∈ (createBackup env s).2
    ∧ Event.progressBackupFailed ∉ (createBackup env s).2 := by
  have hv : (vaultPhase env).2.2 = true := by
    rw [vaultPhase, hvf]
    refine readVaultLoop_all_some_ok _ _ ?_ 0
    intro pc hpc
    obtain ⟨x, _, rfl⟩ := List.mem_map.mp hpc
    rfl
  have hentries : (vaultPhase env).1
      = vf.map fun pc => ZipEntry.mk pc.1 (Content.utf8 pc.2) := by
    rw [vaultPhase, hvf]
    exact readVaultLoop_entries_of_map _ _ 0
  have hmeta : metaPhase env.obsidianListing
      = some ((addChildren ".obsidian" as).1 ++ (addChildren ".obsidian" bs).1,
              (addChildren ".obsidian" as).2
                ++ Warn.readFail (zjoin ".obsidian" nm) :: (addChildren ".obsidian" bs).2) := by
    rw [hob, metaPhase, Option.map_some']
    rw [addChildren_append]
    simp [addChildren, addNode]
  have hcb : createBackup env s
      = (⟨{ s.settings with lastBackupTime := env.now }, false⟩,
         .progressStart :: ((vaultPhase env).2.1
           ++ (.progressVerifying :: (metaEventsOf (metaPhase env.obsidianListing)
           ++ (.mkdirPrimary
              :: .zipWrite (zipNameOf env)
                   ((vaultPhase env).1 ++ metaEntriesOf (metaPhase env.obsidianListing))
              :: (secondaryEvents s.settings env
                  ++ (.saveSettings
                      :: (deleteEvents (cleanOldBackups
                            { s.settings with lastBackupTime := env.now }
                            env.primaryDirListing env.secondaryDirListing)
                          ++ [.progressBackupCreated])))))))) := by
    rw [createBackup, if_neg (by simp [hpath]), if_neg (by simp [hv]),
      if_neg (by simp [hmkdir]), if_neg (by simp [hwrite])]
    simp [List.append_assoc]
  refine ⟨fun _ _ _ => rfl, ?_, ?_, ?_, ?_⟩
  · rw [hcb]
    simp only [hmeta, metaEntriesOf, hentries]
    simp [List.mem_cons, List.mem_append]
  · rw [hcb]
    simp only [hmeta, metaEventsOf]
    simp [List.mem_cons, List.mem_append, List.mem_map]
  · rw [hcb]
    simp [List.mem_cons, List.mem_append]
  · rw [hcb]
    intro hmem
    simp only [List.mem_cons, List.mem_append, List.not_mem_nil, or_false] at hmem
    rcases hmem with h | h | h | h | h | h | h | h | h | h
    · exact absurd h (by simp)
    · obtain ⟨k, hk⟩ := readVaultLoop_events_shape _ _ 0 _ h
      exact absurd hk (by simp)
    · exact absurd h (by simp)
    · rcases metaEventsOf_shape _ _ h with hk | ⟨w, hk⟩ <;> exact absurd hk (by simp)
    · exact absurd h (by simp)
    · exact absurd h (by simp)
    · rcases secondaryEvents_shape _ _ _ h with hk | hk <;> exact absurd hk (by simp)
    · exact absurd h (by simp)
    · rcases deleteEvents_shape _ _ h with ⟨n, hk⟩ | ⟨n, hk⟩ <;> exact absurd hk (by simp)
    · exact absurd h (by simp)

/-- Concrete metadata listing for the C6 witness: five readable files,
one unreadable file (`bad`, both read attempts fail), five more
readable files. -/
def asC6 : List FsNode :=
  [.file "a1" (some [1]) none, .file "a2" (some [2]) none, .file "a3" (some [3]) none,
   .file "a4" (some [4]) none, .file "a5" (some [5]) none]

/-- Second half of the readable metadata files for the C6 witness. -/
def bsC6 : List FsNode :=
  [.file "b1" (some [6]) none, .file "b2" (some [7]) none, .file "b3" (some [8]) none,
   .file "b4" (some [9]) none, .file "b5" (some [10]) none]

/-- Primary-tree content for the C6 witness. -/
def vfC6 : List (String × String) := [("n.md", "x")]

/-- Environment for the C6 witness: everything succeeds except the two
read attempts on the file `bad` in the metadata listing. -/
def envC6 : Env :=
  ⟨5, vfC6.map fun pc => (pc.1, some pc.2),
   some (asC6 ++ FsNode.file "bad" none none :: bsC6),
   true, true, true, some [], some [], "V", "T"⟩

/-- Plugin state for the C6 witness. -/
def stC6 : PluginState := ⟨⟨"/b", "", 24, 0, 9, 5, 10⟩, false⟩

/-- Witness for C6: ten readable metadata files, one unreadable one —
the archive written contains the primary entry and the ten readable
metadata entries, the warning for `bad` is recorded, and the run
reports success, not failure. -/
theorem createBackup_unreadable_metadata_skipped_witness :
    isBlank stC6.settings.backupPath = false
    ∧ (∀ n ∈ asC6 ++ bsC6, n.readOk = true)
    ∧ (Event.zipWrite (zipNameOf envC6)
        ((vfC6.map fun pc => ZipEntry.mk pc.1 (Content.utf8 pc.2))
          ++ ((addChildren ".obsidian" asC6).1 ++ (addChildren ".obsidian" bsC6).1))
        ∈ (createBackup envC6 stC6).2
       ∧ Event.warn (Warn.readFail (zjoin ".obsidian" "bad")) ∈ (createBackup envC6 stC6).2
       ∧ Event.progressBackupCreated ∈ (createBackup envC6 stC6).2
       ∧ Event.progressBackupFailed ∉ (createBackup envC6 stC6).2) :=
  ⟨by decide, by decide,
   (createBackup_unreadable_metadata_skipped envC6 stC6 vfC6 asC6 bsC6 "bad"
     (by decide) rfl rfl rfl rfl (by decide)).2⟩

end VaultGuardian
